import Mathlib

/-!
Verification of the core operations of the Chrome profile backup/restore
utility (`chrome_profile_gui.py`): slot allocation, registry (Local State)
patching, preference stamping, archive walking, wrapped-archive flattening,
and profile listing.  GUI widgets and OS process control are glue outside
the verified core; file systems are modelled as maps from path strings to
file contents, and JSON documents as an inductive value type, with Python
dicts embedded as insertion-ordered association lists (Python 3.7+ dict
semantics: assignment to a present key keeps its position, a new key is
appended at the end).
-/

set_option maxHeartbeats 1000000

namespace BackupChrome

/-- JSON values as produced by `json.loads`.  Numbers are modelled as
integers (the documents this utility touches carry only integer numbers
such as `avatar_index`). -/
inductive JValue where
  | null : JValue
  | jbool : Bool → JValue
  | jnum : Int → JValue
  | jstr : String → JValue
  | jarr : List JValue → JValue
  | jobj : List (String × JValue) → JValue

/-- A Python dict with string keys, as an insertion-ordered association
list with unique keys being the intent (lookups return the first hit). -/
abbrev JObj := List (String × JValue)

/-- Python `d[k]` / `d.get(k)` lookup: first entry with the given key. -/
def dget {α : Type} : List (String × α) → String → Option α
  | [], _ => none
  | (k, v) :: t, key => if k = key then some v else dget t key

/-- Python `d[k] = v`: replace in place if the key is present (keeping its
position), otherwise append at the end. -/
def dset {α : Type} : List (String × α) → String → α → List (String × α)
  | [], key, v => [(key, v)]
  | (k, w) :: t, key, v => if k = key then (k, v) :: t else (k, w) :: dset t key v

/-- Python `d.setdefault(k, v)`: returns the (existing or inserted) value
together with the updated dict. -/
def dsetdefault {α : Type} (d : List (String × α)) (key : String) (v : α) :
    α × List (String × α) :=
  match dget d key with
  | some w => (w, d)
  | none => (v, d ++ [(key, v)])

/-- Removal of a key (used to model a directory entry disappearing when
`shutil.move` renames it away). -/
def dremove {α : Type} (d : List (String × α)) (key : String) : List (String × α) :=
  d.filter (fun e => decide (e.1 ≠ key))

/-- `data` when it is a JSON object; `none` models the `AttributeError` /
`TypeError` Python raises when dict operations hit a non-dict. -/
def jAsObj : JValue → Option JObj
  | .jobj d => some d
  | _ => none

/-- Python `v == s` for a JSON value and a string: only an equal string
compares equal, every other value compares unequal. -/
def jIsStr (v : JValue) (s : String) : Bool :=
  match v with
  | .jstr t => decide (t = s)
  | _ => false

/-- A file tree: profile directories are opaque trees of files and
subdirectories, children listed in directory-iteration order. -/
inductive Tree where
  | file : String → Tree
  | dir : List (String × Tree) → Tree

/-- `Path.is_dir()`. -/
def Tree.isDir : Tree → Bool
  | .dir _ => true
  | .file _ => false

/-! ### Python string helpers

`str.split(sep)` with an explicit one-character separator splits at every
occurrence and keeps empty parts; `int(s)` strips whitespace, accepts an
optional sign and a nonempty run of decimal digits.  (Python additionally
accepts underscores between digits and non-ASCII decimal digits; the model
is restricted to ASCII, which is the only form the program itself ever
generates.) -/

/-- Python `s.split(" ")` on a character list. -/
def pySplit : List Char → List (List Char)
  | [] => [[]]
  | c :: rest =>
    if c = ' ' then [] :: pySplit rest
    else
      match pySplit rest with
      | [] => [[c]]
      | h :: t => (c :: h) :: t

/-- Strip leading and trailing whitespace, as Python `int` does before
parsing. -/
def pyStrip (cs : List Char) : List Char :=
  ((cs.dropWhile Char.isWhitespace).reverse.dropWhile Char.isWhitespace).reverse

/-- Value of a nonempty all-digit character run, else `none`. -/
def pyDigitsVal (cs : List Char) : Option Nat :=
  if cs ≠ [] ∧ cs.all Char.isDigit then
    some (cs.foldl (fun a c => a * 10 + (c.toNat - 48)) 0)
  else none

/-- Python `int(s)` on a token (ASCII decimal, optional sign), `none`
modelling `ValueError`. -/
def pyInt (cs : List Char) : Option Int :=
  match pyStrip cs with
  | [] => none
  | c :: rest =>
    if c = '-' then (pyDigitsVal rest).map (fun n => -(n : Int))
    else if c = '+' then (pyDigitsVal rest).map (fun n => (n : Int))
    else (pyDigitsVal (c :: rest)).map (fun n => (n : Int))

/-- The decimal digit characters. -/
def digitChar : Nat → Char
  | 0 => '0'
  | 1 => '1'
  | 2 => '2'
  | 3 => '3'
  | 4 => '4'
  | 5 => '5'
  | 6 => '6'
  | 7 => '7'
  | 8 => '8'
  | _ => '9'

/-- Little-endian decimal digits of `n`, with explicit fuel so that the
kernel can evaluate it. -/
def natDigitsAux : Nat → Nat → List Nat
  | 0, _ => []
  | _ + 1, 0 => []
  | fuel + 1, n + 1 => (n + 1) % 10 :: natDigitsAux fuel ((n + 1) / 10)

/-- Little-endian decimal digits of `n`. -/
def natDecimalDigits (n : Nat) : List Nat := natDigitsAux n n

/-- Decimal rendering of a natural number, as Python `str` renders a
nonnegative int. -/
def natDecimal (n : Nat) : String :=
  if n = 0 then "0" else String.mk ((natDecimalDigits n).reverse.map digitChar)

/-- Python `str` of an int (the f-string conversion in the source). -/
def pyStrInt (n : Int) : String :=
  if n < 0 then "-" ++ natDecimal n.natAbs else natDecimal n.toNat

/-! ### Slot allocator (`next_profile_folder_name`, lines 125-137) -/

/-- The characters of the numbered-slot naming marker, `"Profile "`
(`p.name.startswith("Profile ")` in the source). -/
def profileMarker : List Char := ['P', 'r', 'o', 'f', 'i', 'l', 'e', ' ']

/-- `int(p.name.split(" ")[1])`: the numeric token of a profile folder
name; `none` models the `IndexError`/`ValueError` caught by the source. -/
def profileNumTok (name : String) : Option Int :=
  match pySplit name.data with
  | _ :: tok :: _ => pyInt tok
  | _ => none

/-- One step of the `max_n` scan in `next_profile_folder_name`:
`if p.is_dir() and p.name.startswith("Profile "): n = int(...); if n > max_n: max_n = n`. -/
def nextProfileStep (m : Int) (e : String × Tree) : Int :=
  if e.2.isDir && profileMarker.isPrefixOf e.1.data then
    match profileNumTok e.1 with
    | some n => if m < n then n else m
    | none => m
  else m

/-- The `max_n` computed by `next_profile_folder_name` over the profile
root's entries (directory-iteration order). -/
def next_profile_max (base : List (String × Tree)) : Int :=
  base.foldl nextProfileStep 0

/-- `next_profile_folder_name()`: returns `f"Profile {max_n + 1}"`. -/
def next_profile_folder_name (base : List (String × Tree)) : String :=
  "Profile " ++ pyStrInt (next_profile_max base + 1)

/-- The slot number of a numbered-slot directory name: the name matches the
`"Profile "` pattern and its numeric token parses to a strictly positive
integer (the spec's invariant: numbered slots are strictly positive). -/
def profileSlotNum (name : String) : Option Int :=
  if profileMarker.isPrefixOf name.data then
    match profileNumTok name with
    | some n => if 0 < n then some n else none
    | none => none
  else none

/-! ### Archive unwrap (`flatten_if_wrapped`, lines 157-171)

If the extraction root holds exactly one entry and it is a directory, the
source moves each child of that directory up into the root in iteration
order and then removes the emptied wrapper.  `shutil.move` raises when a
child carries the wrapper's own name (the root entry with that name — the
wrapper itself — already exists); the exception is caught by the
function's own `try`, so the children before the clash stay promoted, the
clashing child and the rest stay inside the wrapper, and the wrapper is
not removed. -/

def flatten_if_wrapped (t : Tree) : Tree :=
  match t with
  | .dir [(n, .dir inner)] =>
    if inner.all (fun c => decide (c.1 ≠ n)) then .dir inner
    else
      .dir ((n, .dir (inner.drop (inner.takeWhile (fun c => decide (c.1 ≠ n))).length)) ::
        inner.takeWhile (fun c => decide (c.1 ≠ n)))
  | t' => t'

/-! ### Archiver export (`zip_folder`, lines 142-151)

The `os.walk` enumeration of the source directory is abstracted as the
list of regular files it yields, each with its archive entry name
(path relative to the source root), its content, and whether `zf.write`
succeeds on it (locked/unreadable files raise, are logged and skipped). -/

structure SrcFile where
  relpath : String
  content : String
  readable : Bool

/-- `zip_folder`: write each walked file into the archive; a per-file
failure is caught, logged and skipped, and the loop continues. -/
def zip_folder (files : List SrcFile) : List (String × String) :=
  files.foldl (fun acc f => if f.readable then acc ++ [(f.relpath, f.content)] else acc) []

/-! ### File-system model for the JSON state files

Files are modelled up to JSON parsing: a path holds either a document
(`json.loads` succeeds and `json.dumps`/`json.loads` round-trips it) or
unparsable bytes.  `write_json_atomic` (write temp file, rename over the
target) is modelled by its net effect — the target path holds the new
document — and is assumed to succeed (its failure branch only logs and
changes nothing, which no claim exercises).  The platform-dependent
profile-root prefix of the `Local State` path is abstracted away. -/

inductive FileContent where
  | json : JValue → FileContent
  | corrupt : String → FileContent

abbrev Fs := String → Option FileContent

def fsWrite (fs : Fs) (p : String) (c : FileContent) : Fs :=
  fun q => if q = p then some c else fs q

/-- `local_state_path()` with the platform prefix abstracted away. -/
def LOCAL_STATE_PATH : String := "Local State"

/-- `read_json(path, default={})`: the parsed document, or `{}` when the
file is missing or fails to parse (the `except` swallows the error). -/
def read_json (fs : Fs) (p : String) : JValue :=
  match fs p with
  | some (.json v) => v
  | _ => .jobj []

/-! ### State patcher (`update_local_state_register_profile`, lines 202-238) -/

/-- `prof.get("last_active_profiles", [])` followed by
`if not isinstance(lst, list): lst = []`. -/
def jGetList (p : JObj) : List JValue :=
  match dget p "last_active_profiles" with
  | some (.jarr xs) => xs
  | _ => []

/-- The `info_cache` entry after registration: `meta["name"] = display`,
then `setdefault` of the two auxiliary identity fields to empty strings. -/
def regNewMeta (meta : JObj) (display : String) : JObj :=
  (dsetdefault
    ((dsetdefault (dset meta "name" (.jstr display)) "gaia_name" (.jstr "")).2)
    "user_name" (.jstr "")).2

/-- The `profile` section after registration: entry written back into
`info_cache`, `last_used` set, recency list deduplicated and fronted. -/
def regNewProf (p ic meta : JObj) (folder display : String) : JObj :=
  let p1 := dset p "info_cache" (.jobj (dset ic folder (.jobj (regNewMeta meta display))))
  let p2 := dset p1 "last_used" (.jstr folder)
  dset p2 "last_active_profiles"
    (.jarr (.jstr folder ::
      (jGetList p2).filter (fun x => match x with | .jstr s => decide (s ≠ folder) | _ => true)))

/-- `update_local_state_register_profile` on the in-memory document
(`data` is what `read_json` returned).  `none` models the uncaught
exception raised when a dict operation hits a non-dict, which propagates
to the caller before any write.  The recency filter `x != folder_name`
compares each JSON value with a Python string: only an equal string
compares equal, every other value is kept. -/
def update_local_state_register_profile (data : JValue) (folder display : String) :
    Option JValue :=
  match jAsObj data with
  | none => none
  | some d0 =>
    let pd := dsetdefault d0 "profile" (.jobj [])
    match jAsObj pd.1 with
    | none => none
    | some p0 =>
      let icd := dsetdefault p0 "info_cache" (.jobj [])
      match jAsObj icd.1 with
      | none => none
      | some ic0 =>
        match jAsObj ((dget ic0 folder).getD (.jobj [])) with
        | none => none
        | some meta0 =>
          let meta1 := dset meta0 "name" (.jstr display)
          let meta2 := (dsetdefault meta1 "gaia_name" (.jstr "")).2
          let meta3 := (dsetdefault meta2 "user_name" (.jstr "")).2
          let ic1 := dset ic0 folder (.jobj meta3)
          let p1 := dset icd.2 "info_cache" (.jobj ic1)
          let p2 := dset p1 "last_used" (.jstr folder)
          let lst1 := .jstr folder ::
            (jGetList p2).filter (fun x => match x with | .jstr s => decide (s ≠ folder) | _ => true)
          let p3 := dset p2 "last_active_profiles" (.jarr lst1)
          some (.jobj (dset pd.2 "profile" (.jobj p3)))

/-- The backup path `ls_path.with_name(ls_path.name + ".bak_" + timestamp)`. -/
def bakPath (ts : String) : String := LOCAL_STATE_PATH ++ ".bak_" ++ ts

/-- `update_local_state_register_profile` at the file-system level: back up
the current registry file if it exists (best effort), load with corruption
treated as an empty document, patch, write atomically. -/
def update_local_state_register_profile_fs (fs : Fs) (ts folder display : String) :
    Option Fs :=
  let fs1 := match fs LOCAL_STATE_PATH with
    | some c => fsWrite fs (bakPath ts) c
    | none => fs
  match update_local_state_register_profile (read_json fs1 LOCAL_STATE_PATH) folder display with
  | none => none
  | some out => some (fsWrite fs1 LOCAL_STATE_PATH (.json out))

/-! ### Preference stamping (`ensure_preferences_display_name`, lines 186-200) -/

/-- `ensure_preferences_display_name(profile_dir, display_name)`: load the
profile's `Preferences` (empty document if absent or corrupt); if the
stored `profile.name` differs from the requested name, set it, default
`avatar_index` to 26 and write atomically; otherwise do nothing.  A dict
operation hitting a non-dict raises inside the function's own `try`, which
logs and leaves the file untouched. -/
def ensure_preferences_display_name (fs : Fs) (profileDir display : String) : Fs :=
  let prefsPath := profileDir ++ "/Preferences"
  match read_json fs prefsPath with
  | .jobj d =>
    let pd := dsetdefault d "profile" (.jobj [])
    match jAsObj pd.1 with
    | some prof =>
      if jIsStr ((dget prof "name").getD .null) display then fs
      else
        let prof1 := dset prof "name" (.jstr display)
        let prof2 := (dsetdefault prof1 "avatar_index" (.jnum 26)).2
        fsWrite fs prefsPath (.json (.jobj (dset pd.2 "profile" (.jobj prof2))))
    | none => fs
  | _ => fs

/-! ### Profile locator (`read_profile_display_names` lines 92-104,
`list_profiles_with_names` lines 106-123) -/

/-- Python truthiness of a JSON value (`None`, `False`, `0`, `""`, `[]`,
and the empty dict are falsy). -/
def truthy : JValue → Bool
  | .null => false
  | .jbool b => b
  | .jnum n => decide (n ≠ 0)
  | .jstr s => decide (s ≠ "")
  | .jarr [] => false
  | .jarr (_ :: _) => true
  | .jobj [] => false
  | .jobj (_ :: _) => true

/-- Python `a or b`: `a` if truthy, else `b`. -/
def pyOrElse (a b : JValue) : JValue := if truthy a then a else b

/-- `meta.get("name") or meta.get("shortcut_name") or folder` (a missing
key gives `None`, which JSON `null` also maps to). -/
def dispOf (m : JObj) (folder : String) : JValue :=
  pyOrElse ((dget m "name").getD .null)
    (pyOrElse ((dget m "shortcut_name").getD .null) (.jstr folder))

/-- The `for folder, meta in info_cache.items()` accumulation of
`read_profile_display_names`: a non-dict `meta` raises `AttributeError`
mid-loop, which the surrounding `except` catches, returning the mapping
accumulated so far. -/
def collectNames : List (String × JValue) → JObj → JObj
  | [], acc => acc
  | (folder, meta) :: rest, acc =>
    match meta with
    | .jobj m => collectNames rest (dset acc folder (dispOf m folder))
    | _ => acc

/-- `read_profile_display_names()`: folder → display-name mapping from the
registry; any failure (missing file, parse error, non-dict levels) is
swallowed and yields whatever was accumulated. -/
def read_profile_display_names (fs : Fs) : JObj :=
  match fs LOCAL_STATE_PATH with
  | some (.json data) =>
    match data with
    | .jobj d =>
      match (dget d "profile").getD (.jobj []) with
      | .jobj p =>
        match (dget p "info_cache").getD (.jobj []) with
        | .jobj ic => collectNames ic []
        | _ => []
      | _ => []
    | _ => []
  | _ => []

/-- The registry's `info_cache` table as the locator reads it
(`data.get("profile", {}).get("info_cache", {})`), empty at any non-dict
level. -/
def regInfoCache (v : JValue) : JObj :=
  match v with
  | .jobj d =>
    match (dget d "profile").getD (.jobj []) with
    | .jobj p =>
      match (dget p "info_cache").getD (.jobj []) with
      | .jobj ic => ic
      | _ => []
    | _ => []
  | _ => []

/-- The `sort_key` closure of `list_profiles_with_names`: `Default` maps
to `(0, 0)`; any other folder to `(1, n)` with `n` its parsed numeric
token, or `(1, 99999)` when parsing raises. -/
def sort_key (folder : String) : Nat × Int :=
  if folder = "Default" then (0, 0)
  else
    match profileNumTok folder with
    | some n => (1, n)
    | none => (1, 99999)

/-- Lexicographic comparison of sort keys (Python tuple `<=`). -/
def keyLE (a b : Nat × Int) : Bool := a.1 < b.1 || (a.1 = b.1 && a.2 ≤ b.2)

/-- Lexicographic strict comparison of sort keys (Python tuple `<`). -/
def keyLT (a b : Nat × Int) : Bool := a.1 < b.1 || (a.1 = b.1 && a.2 < b.2)

/-- Stable insertion of an entry: it goes after every entry with a
strictly smaller key and before the first entry whose key is not smaller,
so entries with equal keys keep their original relative order. -/
def sIns (x : String × JValue) : List (String × JValue) → List (String × JValue)
  | [] => [x]
  | y :: t => if keyLT (sort_key y.1) (sort_key x.1) then y :: sIns x t else x :: y :: t

/-- `sorted(results, key=sort_key)`: Python's sort is stable; any stable
comparison sort computes the same list, modelled by stable insertion
sort. -/
def pySortedByKey (l : List (String × JValue)) : List (String × JValue) :=
  l.foldr sIns []

/-- The unsorted `results` list: immediate subdirectories named `Default`
or starting with `"Profile "`, each with its display name from the
registry mapping, falling back to the folder name itself. -/
def profileEntries (fs : Fs) (base : List (String × Tree)) : List (String × JValue) :=
  base.filterMap (fun e =>
    if e.2.isDir && (e.1 = "Default" || profileMarker.isPrefixOf e.1.data) then
      some (e.1, (dget (read_profile_display_names fs) e.1).getD (.jstr e.1))
    else none)

/-- `list_profiles_with_names()`. -/
def list_profiles_with_names (fs : Fs) (base : List (String × Tree)) :
    List (String × JValue) :=
  pySortedByKey (profileEntries fs base)

/-! ### Import placement (`App._do_import`, lines 497-557, core steps)

The pipeline around archive extraction: allocate the next slot, make a
fresh timestamped temporary directory next to it, extract into it
(`unzip_to_folder`, whose outcome is a parameter: `.ok` with the extracted
tree, or `.error` with the partial tree left behind by a failed
`extractall`, the raised exception aborting the whole import), flatten,
then `shutil.move` the temporary directory onto the final name.  The
profile root is the association list of its entries. -/

/-- The `shutil.move(str(tmpdir), str(dest))` step: plain rename when the
destination is free; moving *into* an existing destination directory when
it exists (erroring if the inner name is taken); error — modelled as no
state change, the exception aborting the import — when the destination is
an existing file. -/
def moveEntry (base : List (String × Tree)) (src dst : String) : List (String × Tree) :=
  match dget base src with
  | none => base
  | some t =>
    match dget base dst with
    | none => dset (dremove base src) dst t
    | some (.dir d) =>
      match dget d src with
      | some _ => base
      | none => dset (dremove base src) dst (.dir (d ++ [(src, t)]))
    | some (.file _) => base

/-- The extraction-and-placement core of `_do_import`, after the temporary
directory has been created with content `t0`. -/
def import_place (base1 : List (String × Tree)) (folder tmpName : String) (t0 : Tree)
    (unzip : Tree → Except Tree Tree) : List (String × Tree) :=
  match unzip t0 with
  | .error part => dset base1 tmpName part
  | .ok t1 => moveEntry (dset base1 tmpName (flatten_if_wrapped t1)) tmpName folder

/-- `_do_import` from slot allocation to placement: `tmpdir.mkdir(...,
exist_ok=True)` reuses an existing directory, raises on an existing file
(aborting before any other change), and otherwise creates an empty one. -/
def import_restore (base : List (String × Tree)) (ts : String)
    (unzip : Tree → Except Tree Tree) : List (String × Tree) :=
  let folder := next_profile_folder_name base
  let tmpName := folder ++ "_tmp_" ++ ts
  match dget base tmpName with
  | some (.file _) => base
  | some (.dir t0) => import_place base folder tmpName (.dir t0) unzip
  | none => import_place (dset base tmpName (.dir [])) folder tmpName (.dir []) unzip

/-! ## Dictionary lemmas -/

theorem dget_dset_self {α : Type} (d : List (String × α)) (k : String) (v : α) :
    dget (dset d k v) k = some v := by
  induction d with
  | nil => simp [dget, dset]
  | cons e t ih =>
    obtain ⟨k1, v1⟩ := e
    by_cases h : k1 = k
    · simp [dset, dget, h]
    · simp [dset, dget, h, ih]

theorem dget_dset_ne {α : Type} (d : List (String × α)) (k k' : String) (v : α)
    (h : k' ≠ k) : dget (dset d k v) k' = dget d k' := by
  induction d with
  | nil => simp [dget, dset, Ne.symm h]
  | cons e t ih =>
    obtain ⟨k1, v1⟩ := e
    by_cases h1 : k1 = k
    · subst h1
      simp [dset, dget, Ne.symm h]
    · simp [dset, dget, h1, ih]

theorem dset_of_dget_eq {α : Type} (d : List (String × α)) (k : String) (v : α)
    (h : dget d k = some v) : dset d k v = d := by
  induction d with
  | nil => simp [dget] at h
  | cons e t ih =>
    obtain ⟨k1, v1⟩ := e
    by_cases h1 : k1 = k
    · subst h1
      simp [dget] at h
      simp [dset, h]
    · simp [dget, h1] at h
      simp [dset, h1, ih h]

theorem dget_append_of_some {α : Type} (d1 d2 : List (String × α)) (k : String) (v : α)
    (h : dget d1 k = some v) : dget (d1 ++ d2) k = some v := by
  induction d1 with
  | nil => simp [dget] at h
  | cons e t ih =>
    obtain ⟨k1, v1⟩ := e
    by_cases h1 : k1 = k
    · subst h1
      simp [dget] at h
      simp [dget, h]
    · simp [dget, h1] at h
      simp [dget, h1, ih h]

theorem dget_append_of_none {α : Type} (d1 d2 : List (String × α)) (k : String)
    (h : dget d1 k = none) : dget (d1 ++ d2) k = dget d2 k := by
  induction d1 with
  | nil => simp [dget]
  | cons e t ih =>
    obtain ⟨k1, v1⟩ := e
    by_cases h1 : k1 = k
    · simp [dget, h1] at h
    · simp [dget, h1] at h
      simp [dget, h1, ih h]

theorem dsetdefault_of_present {α : Type} (d : List (String × α)) (k : String) (v w : α)
    (h : dget d k = some w) : dsetdefault d k v = (w, d) := by
  simp [dsetdefault, h]

theorem dget_dsetdefault_self {α : Type} (d : List (String × α)) (k : String) (v : α) :
    dget (dsetdefault d k v).2 k = some ((dget d k).getD v) := by
  unfold dsetdefault
  cases h : dget d k with
  | some w => simp [h]
  | none =>
    simp only [h]
    rw [dget_append_of_none _ _ _ h]
    simp [dget]

theorem dget_dsetdefault_ne {α : Type} (d : List (String × α)) (k k' : String) (v : α)
    (h : k' ≠ k) : dget (dsetdefault d k v).2 k' = dget d k' := by
  unfold dsetdefault
  cases hh : dget d k with
  | some w => simp
  | none =>
    simp only []
    cases hd : dget d k' with
    | some u => rw [dget_append_of_some _ _ _ _ hd]
    | none =>
      rw [dget_append_of_none _ _ _ hd]
      simp [dget, Ne.symm h]

theorem dget_mem {α : Type} (d : List (String × α)) (k : String) (v : α)
    (h : dget d k = some v) : (k, v) ∈ d := by
  induction d with
  | nil => simp [dget] at h
  | cons e t ih =>
    obtain ⟨k1, v1⟩ := e
    by_cases h1 : k1 = k
    · subst h1
      simp [dget] at h
      simp [h]
    · simp [dget, h1] at h
      simp [ih h]

theorem dget_dremove_self {α : Type} (d : List (String × α)) (k : String) :
    dget (dremove d k) k = none := by
  induction d with
  | nil => rfl
  | cons e t ih =>
    obtain ⟨k1, v1⟩ := e
    by_cases h1 : k1 = k
    · simp [dremove, h1] at ih ⊢
      exact ih
    · simp [dremove, h1] at ih ⊢
      simp [dget, h1, ih]

theorem dget_dremove_ne {α : Type} (d : List (String × α)) (k k' : String)
    (h : k' ≠ k) : dget (dremove d k) k' = dget d k' := by
  induction d with
  | nil => rfl
  | cons e t ih =>
    obtain ⟨k1, v1⟩ := e
    by_cases h1 : k1 = k
    · subst h1
      simp only [dremove, List.filter_cons] at ih ⊢
      simp only [decide_not, decide_eq_true_eq] at ih ⊢
      simp [ih, dget, Ne.symm h]
    · simp only [dremove, List.filter_cons] at ih ⊢
      simp only [decide_not, decide_eq_true_eq] at ih ⊢
      simp [h1, dget, ih]

/-! ## Decimal rendering and Python int-parsing lemmas -/

theorem digitChar_isDigit : ∀ d, d < 10 → (digitChar d).isDigit = true := by decide

theorem digitChar_val : ∀ d, d < 10 → (digitChar d).toNat - 48 = d := by decide

theorem isDigit_ne_space (c : Char) (h : c.isDigit = true) : c ≠ ' ' := by
  intro he
  subst he
  exact absurd h (by decide)

theorem isDigit_ne_minus (c : Char) (h : c.isDigit = true) : c ≠ '-' := by
  intro he
  subst he
  exact absurd h (by decide)

theorem isDigit_ne_plus (c : Char) (h : c.isDigit = true) : c ≠ '+' := by
  intro he
  subst he
  exact absurd h (by decide)

theorem isDigit_not_whitespace (c : Char) (h : c.isDigit = true) :
    c.isWhitespace = false := by
  cases hw : c.isWhitespace with
  | false => rfl
  | true =>
    exfalso
    have hd : c = ' ' ∨ c = '\t' ∨ c = '\r' ∨ c = '\n' := by
      simpa [Char.isWhitespace, or_assoc] using hw
    rcases hd with h1 | h1 | h1 | h1 <;> subst h1 <;> exact absurd h (by decide)

theorem dropWhile_of_all_false {p : Char → Bool} (cs : List Char)
    (h : ∀ c ∈ cs, p c = false) : cs.dropWhile p = cs := by
  cases cs with
  | nil => rfl
  | cons a t => simp [List.dropWhile_cons, h a (by simp)]

theorem pyStrip_of_digits (cs : List Char) (h : ∀ c ∈ cs, c.isDigit = true) :
    pyStrip cs = cs := by
  have h1 : ∀ c ∈ cs, c.isWhitespace = false := fun c hc =>
    isDigit_not_whitespace c (h c hc)
  unfold pyStrip
  rw [dropWhile_of_all_false cs h1]
  rw [dropWhile_of_all_false cs.reverse (fun c hc => h1 c (List.mem_reverse.mp hc))]
  simp

theorem pySplit_no_space (cs : List Char) (h : ∀ c ∈ cs, c ≠ ' ') :
    pySplit cs = [cs] := by
  induction cs with
  | nil => rfl
  | cons c t ih =>
    have hc : c ≠ ' ' := h c (by simp)
    have ht := ih (fun x hx => h x (by simp [hx]))
    simp [pySplit, hc, ht]

theorem pySplit_append_space (xs ys : List Char) (h : ∀ c ∈ xs, c ≠ ' ') :
    pySplit (xs ++ ' ' :: ys) = xs :: pySplit ys := by
  induction xs with
  | nil => simp [pySplit]
  | cons c t ih =>
    have hc : c ≠ ' ' := h c (by simp)
    have ht := ih (fun x hx => h x (by simp [hx]))
    simp [pySplit, hc, ht]

theorem foldl_digitChar (l : List Nat) (h : ∀ d ∈ l, d < 10) :
    ∀ a : Nat, (l.map digitChar).foldl (fun a c => a * 10 + (c.toNat - 48)) a =
      l.foldl (fun a d => a * 10 + d) a := by
  induction l with
  | nil => intro a; rfl
  | cons d t ih =>
    intro a
    have hd : d < 10 := h d (by simp)
    simp only [List.map_cons, List.foldl_cons, digitChar_val d hd]
    exact ih (fun x hx => h x (by simp [hx])) _

theorem foldr_mul_ofDigits (l : List Nat) :
    l.foldr (fun x y => y * 10 + x) 0 = Nat.ofDigits 10 l := by
  induction l with
  | nil => simp [Nat.ofDigits_nil]
  | cons d t ih =>
    simp only [List.foldr_cons, ih, Nat.ofDigits_cons]
    ring

theorem natDigitsAux_eq : ∀ (fuel n : Nat), n ≤ fuel →
    natDigitsAux fuel n = Nat.digits 10 n := by
  intro fuel
  induction fuel with
  | zero =>
    intro n hn
    interval_cases n
    simp [natDigitsAux]
  | succ f ih =>
    intro n hn
    cases n with
    | zero => simp [natDigitsAux]
    | succ m =>
      rw [natDigitsAux]
      have hdiv : (m + 1) / 10 ≤ f := by
        have := Nat.div_lt_self (Nat.succ_pos m) (by norm_num : 1 < 10)
        omega
      rw [ih _ hdiv]
      rw [Nat.digits_def' (by norm_num : (1 : ℕ) < 10) (Nat.succ_pos m)]

theorem natDecimal_data (k : Nat) (hk : 1 ≤ k) :
    (natDecimal k).data = (Nat.digits 10 k).reverse.map digitChar := by
  unfold natDecimal
  rw [if_neg (by omega)]
  rw [natDecimalDigits, natDigitsAux_eq k k le_rfl]

theorem natDecimal_chars_digit (k : Nat) (hk : 1 ≤ k) :
    ∀ c ∈ (natDecimal k).data, c.isDigit = true := by
  rw [natDecimal_data k hk]
  intro c hc
  simp only [List.mem_map, List.mem_reverse] at hc
  obtain ⟨d, hd, rfl⟩ := hc
  exact digitChar_isDigit d (Nat.digits_lt_base (by norm_num) hd)

theorem natDecimal_data_ne_nil (k : Nat) (hk : 1 ≤ k) : (natDecimal k).data ≠ [] := by
  rw [natDecimal_data k hk]
  simp [Nat.digits_ne_nil_iff_ne_zero]
  omega

theorem pyDigitsVal_natDecimal (k : Nat) (hk : 1 ≤ k) :
    pyDigitsVal (natDecimal k).data = some k := by
  unfold pyDigitsVal
  rw [if_pos]
  · congr 1
    rw [natDecimal_data k hk]
    rw [foldl_digitChar _ (fun d hd =>
      Nat.digits_lt_base (by norm_num) (List.mem_reverse.mp hd)) 0]
    rw [List.foldl_reverse]
    rw [foldr_mul_ofDigits]
    rw [Nat.ofDigits_digits]
  · refine ⟨natDecimal_data_ne_nil k hk, ?_⟩
    rw [List.all_eq_true]
    intro c hc
    exact natDecimal_chars_digit k hk c hc

theorem pyInt_natDecimal (k : Nat) (hk : 1 ≤ k) :
    pyInt (natDecimal k).data = some (k : Int) := by
  have hdig := natDecimal_chars_digit k hk
  have hstrip : pyStrip (natDecimal k).data = (natDecimal k).data :=
    pyStrip_of_digits _ hdig
  have hne := natDecimal_data_ne_nil k hk
  obtain ⟨c, rest, hcr⟩ : ∃ c rest, (natDecimal k).data = c :: rest := by
    cases h : (natDecimal k).data with
    | nil => exact absurd h hne
    | cons a t => exact ⟨a, t, rfl⟩
  have hc : c.isDigit = true := hdig c (by rw [hcr]; simp)
  unfold pyInt
  rw [hstrip, hcr]
  simp only [if_neg (isDigit_ne_minus c hc), if_neg (isDigit_ne_plus c hc)]
  rw [← hcr, pyDigitsVal_natDecimal k hk]
  rfl

theorem profileNumTok_canonical (k : Nat) (hk : 1 ≤ k) :
    profileNumTok ("Profile " ++ natDecimal k) = some (k : Int) := by
  unfold profileNumTok
  rw [String.data_append]
  have hsplit : pySplit ("Profile ".data ++ (natDecimal k).data) =
      ['P', 'r', 'o', 'f', 'i', 'l', 'e'] :: pySplit (natDecimal k).data := by
    have hps := pySplit_append_space ['P', 'r', 'o', 'f', 'i', 'l', 'e']
      (natDecimal k).data (by decide)
    simpa using hps
  rw [hsplit]
  rw [pySplit_no_space _ (fun c hc => isDigit_ne_space c (natDecimal_chars_digit k hk c hc))]
  exact pyInt_natDecimal k hk

theorem profileMarker_isPrefixOf_canonical (s : String) :
    profileMarker.isPrefixOf ("Profile " ++ s).data = true := by
  rw [String.data_append]
  exact List.isPrefixOf_iff_prefix.mpr ⟨s.data, rfl⟩

theorem profileSlotNum_canonical (k : Nat) (hk : 1 ≤ k) :
    profileSlotNum ("Profile " ++ natDecimal k) = some (k : Int) := by
  unfold profileSlotNum
  rw [if_pos (profileMarker_isPrefixOf_canonical _)]
  rw [profileNumTok_canonical k hk]
  simp only []
  rw [if_pos (by exact_mod_cast hk)]

/-! ## Slot allocator lemmas -/

theorem nextProfileStep_ge (m : Int) (e : String × Tree) : m ≤ nextProfileStep m e := by
  unfold nextProfileStep
  split
  · split
    · split
      · omega
      · omega
    · omega
  · omega

theorem foldl_nextProfileStep_ge (l : List (String × Tree)) :
    ∀ m : Int, m ≤ l.foldl nextProfileStep m := by
  induction l with
  | nil => intro m; simp
  | cons e t ih =>
    intro m
    rw [List.foldl_cons]
    exact le_trans (nextProfileStep_ge m e) (ih _)

theorem next_profile_max_nonneg (base : List (String × Tree)) :
    0 ≤ next_profile_max base := foldl_nextProfileStep_ge base 0

theorem foldl_nextProfileStep_bound (l : List (String × Tree)) :
    ∀ (m : Int) (e : String × Tree), e ∈ l → e.2.isDir = true →
    profileMarker.isPrefixOf e.1.data = true → ∀ n : Int, profileNumTok e.1 = some n →
    n ≤ l.foldl nextProfileStep m := by
  induction l with
  | nil => intro m e he; simp at he
  | cons a t ih =>
    intro m e he hdir hpre n htok
    rw [List.foldl_cons]
    rcases List.mem_cons.mp he with rfl | hmem
    · have hstep : n ≤ nextProfileStep m e := by
        unfold nextProfileStep
        rw [if_pos (by simp [hdir, hpre])]
        rw [htok]
        show n ≤ if m < n then n else m
        split <;> omega
      exact le_trans hstep (foldl_nextProfileStep_ge t _)
    · exact ih _ e hmem hdir hpre n htok

theorem profileSlotNum_eq_some (name : String) (n : Int)
    (hpre : profileMarker.isPrefixOf name.data = true)
    (htok : profileNumTok name = some n) (hpos : 0 < n) :
    profileSlotNum name = some n := by
  unfold profileSlotNum
  rw [if_pos hpre, htok]
  show (if 0 < n then some n else none) = some n
  rw [if_pos hpos]

theorem profileSlotNum_inv (name : String) (n : Int) (h : profileSlotNum name = some n) :
    profileMarker.isPrefixOf name.data = true ∧ profileNumTok name = some n ∧ 0 < n := by
  unfold profileSlotNum at h
  by_cases hp : profileMarker.isPrefixOf name.data = true
  · rw [if_pos hp] at h
    cases htok : profileNumTok name with
    | none =>
      rw [htok] at h
      simp at h
    | some m =>
      rw [htok] at h
      replace h : (if 0 < m then some m else none) = some n := h
      by_cases hpos : (0 : Int) < m
      · rw [if_pos hpos] at h
        injection h with h2
        subst h2
        exact ⟨hp, rfl, hpos⟩
      · rw [if_neg hpos] at h
        simp at h
  · rw [if_neg hp] at h
    simp at h

theorem foldl_nextProfileStep_none (l : List (String × Tree)) :
    ∀ m : Int, 0 ≤ m → (∀ e ∈ l, e.2.isDir = true → profileSlotNum e.1 = none) →
    l.foldl nextProfileStep m = m := by
  induction l with
  | nil => intro m _ _; rfl
  | cons a t ih =>
    intro m hm hall
    rw [List.foldl_cons]
    have hstep : nextProfileStep m a = m := by
      unfold nextProfileStep
      by_cases hc : (a.2.isDir && profileMarker.isPrefixOf a.1.data) = true
      · rw [if_pos hc]
        have hdir : a.2.isDir = true := ((Bool.and_eq_true _ _).mp hc).1
        have hpre : profileMarker.isPrefixOf a.1.data = true := ((Bool.and_eq_true _ _).mp hc).2
        have hsn := hall a (by simp) hdir
        cases htok : profileNumTok a.1 with
        | none => rfl
        | some n =>
          have hn : ¬ (0 : Int) < n := by
            intro hpos
            rw [profileSlotNum_eq_some a.1 n hpre htok hpos] at hsn
            exact Option.some_ne_none _ hsn
          show (if m < n then n else m) = m
          rw [if_neg (by omega)]
      · rw [if_neg hc]
    rw [hstep]
    exact ih m hm (fun e he hd => hall e (by simp [he]) hd)

theorem next_profile_name_eq (base : List (String × Tree)) :
    next_profile_folder_name base =
      "Profile " ++ natDecimal (next_profile_max base + 1).toNat := by
  unfold next_profile_folder_name pyStrInt
  rw [if_neg (by have := next_profile_max_nonneg base; omega)]

/-- The allocated folder name never names an existing sibling directory
(shared between the slot-allocator claim and the import-placement claim). -/
theorem next_profile_fresh (base : List (String × Tree)) (e : String × Tree)
    (he : e ∈ base) (hdir : e.2.isDir = true) :
    e.1 ≠ next_profile_folder_name base := by
  intro heq
  have hnn := next_profile_max_nonneg base
  have hk1 : 1 ≤ (next_profile_max base + 1).toNat := by omega
  have hs : profileSlotNum e.1 = some (((next_profile_max base + 1).toNat : Nat) : Int) := by
    rw [heq, next_profile_name_eq base]
    exact profileSlotNum_canonical _ hk1
  obtain ⟨hpre, htok, hpos⟩ := profileSlotNum_inv _ _ hs
  have hb : (((next_profile_max base + 1).toNat : Nat) : Int) ≤ next_profile_max base :=
    foldl_nextProfileStep_bound base 0 e he hdir hpre _ htok
  omega

/-- C1: for every state of the profile root, `next_profile_folder_name`
returns a numbered-slot folder name whose number strictly exceeds the
number of every existing numbered-slot directory, which never equals the
name of any currently existing sibling directory, and which is slot 1
when no numbered-slot directory exists. -/
theorem c1_next_slot (base : List (String × Tree)) :
    (∃ k : Nat, 1 ≤ k ∧ next_profile_folder_name base = "Profile " ++ natDecimal k ∧
      ∀ e ∈ base, e.2.isDir = true → ∀ n : Int, profileSlotNum e.1 = some n → n < (k : Int)) ∧
    (∀ e ∈ base, e.2.isDir = true → e.1 ≠ next_profile_folder_name base) ∧
    ((∀ e ∈ base, e.2.isDir = true → profileSlotNum e.1 = none) →
      next_profile_folder_name base = "Profile 1") := by
  have hnn := next_profile_max_nonneg base
  refine ⟨⟨(next_profile_max base + 1).toNat, by omega, next_profile_name_eq base, ?_⟩,
    fun e he hdir => next_profile_fresh base e he hdir, ?_⟩
  · intro e he hdir n hsn
    obtain ⟨hpre, htok, hpos⟩ := profileSlotNum_inv _ _ hsn
    have hb : n ≤ next_profile_max base :=
      foldl_nextProfileStep_bound base 0 e he hdir hpre n htok
    omega
  · intro hall
    have hmax : next_profile_max base = 0 := foldl_nextProfileStep_none base 0 le_rfl hall
    rw [next_profile_name_eq base, hmax]
    rfl

/-- C1 witness: in a root holding `Default` and `Profile 2`, the allocated
name differs from the existing directory `Profile 2`. -/
theorem c1_next_slot_witness :
    "Profile 2" ≠
      next_profile_folder_name [("Default", Tree.dir []), ("Profile 2", Tree.dir [])] :=
  (c1_next_slot [("Default", Tree.dir []), ("Profile 2", Tree.dir [])]).2.1
    ("Profile 2", Tree.dir []) (by simp) rfl

/-! ## C4: archive unwrap -/

/-- C4 counterexample: the claim fails at two concrete roots.  First, for
the root `A/A/x` (the wrapper's single child carries the wrapper's own
name) the promotion is not performed — `shutil.move` raises because the
root entry named `A` (the wrapper itself) already exists, so the tree is
left unchanged instead of becoming `A/x`.  Second, extracting the wrapped
archive `A/B/` gives `B/` while extracting the equivalent unwrapped
archive `B/` gives the empty root — the unwrap step fires again on the
unwrapped archive because its root is itself a single directory. -/
theorem c4_unwrap_counterexample :
    flatten_if_wrapped (.dir [("A", .dir [("A", .file "x")])]) ≠ .dir [("A", .file "x")] ∧
    flatten_if_wrapped (.dir [("A", .dir [("B", .dir [])])]) ≠
      flatten_if_wrapped (.dir [("B", .dir [])]) := by
  constructor
  · intro h
    rw [show flatten_if_wrapped (.dir [("A", .dir [("A", .file "x")])]) =
        Tree.dir [("A", .dir [("A", .file "x")])] from rfl] at h
    simp at h
  · intro h
    rw [show flatten_if_wrapped (.dir [("A", .dir [("B", .dir [])])]) =
        Tree.dir [("B", .dir [])] from rfl] at h
    rw [show flatten_if_wrapped (.dir [("B", .dir [])]) = Tree.dir [] from rfl] at h
    simp at h

/-- C4 amended: if the extraction root contains exactly one entry, that
entry is a directory and none of its children carries the wrapper's own
name, unwrap promotes every child up one level and removes the wrapper;
under the same proviso, extracting an archive with a single wrapping
top-level directory yields the same final tree as the equivalent archive
without the wrapper provided the unwrapped root is not itself exactly one
directory; a root not of the wrapped shape is left unchanged. -/
theorem c4_unwrap_amended :
    (∀ (n : String) (inner : List (String × Tree)), (∀ c ∈ inner, c.1 ≠ n) →
      flatten_if_wrapped (.dir [(n, .dir inner)]) = .dir inner) ∧
    (∀ (n : String) (inner : List (String × Tree)), (∀ c ∈ inner, c.1 ≠ n) →
      (∀ (m : String) (sub : List (String × Tree)), inner ≠ [(m, .dir sub)]) →
      flatten_if_wrapped (.dir [(n, .dir inner)]) = flatten_if_wrapped (.dir inner)) ∧
    (∀ t : Tree, (∀ (n : String) (inner : List (String × Tree)), t ≠ .dir [(n, .dir inner)]) →
      flatten_if_wrapped t = t) := by
  have hwrap : ∀ (n : String) (inner : List (String × Tree)), (∀ c ∈ inner, c.1 ≠ n) →
      flatten_if_wrapped (.dir [(n, .dir inner)]) = .dir inner := by
    intro n inner h
    show (if inner.all (fun c => decide (c.1 ≠ n)) then Tree.dir inner else _) = Tree.dir inner
    rw [if_pos]
    rw [List.all_eq_true]
    intro c hc
    simpa using h c hc
  have hflat : ∀ (inner : List (String × Tree)),
      (∀ (m : String) (sub : List (String × Tree)), inner ≠ [(m, .dir sub)]) →
      flatten_if_wrapped (.dir inner) = .dir inner := by
    intro inner h2
    rcases inner with _ | ⟨⟨m, tsub⟩, rest⟩
    · rfl
    rcases rest with _ | ⟨y, rest2⟩
    · cases tsub with
      | file s => rfl
      | dir sub => exact absurd rfl (h2 m sub)
    · cases tsub <;> rfl
  refine ⟨hwrap, ?_, ?_⟩
  · intro n inner h h2
    rw [hwrap n inner h, hflat inner h2]
  · intro t ht
    cases t with
    | file s => rfl
    | dir ch =>
      rcases ch with _ | ⟨⟨m, tsub⟩, rest⟩
      · rfl
      rcases rest with _ | ⟨y, rest2⟩
      · cases tsub with
        | file s => rfl
        | dir sub => exact absurd rfl (ht m sub)
      · cases tsub <;> rfl

/-- C4 witness: a wrapped profile archive with two files is promoted. -/
theorem c4_unwrap_amended_witness :
    flatten_if_wrapped
        (.dir [("wrap", .dir [("Bookmarks", .file "b"), ("Preferences", .file "p")])]) =
      .dir [("Bookmarks", .file "b"), ("Preferences", .file "p")] :=
  c4_unwrap_amended.1 "wrap" _ (by simp)

/-! ## C7: best-effort archiving -/

theorem zip_folder_go (files : List SrcFile) :
    ∀ acc : List (String × String),
      files.foldl (fun acc f => if f.readable then acc ++ [(f.relpath, f.content)] else acc) acc =
        acc ++ (files.filter (fun f => f.readable)).map (fun f => (f.relpath, f.content)) := by
  induction files with
  | nil => intro acc; simp
  | cons f t ih =>
    intro acc
    rw [List.foldl_cons]
    by_cases hr : f.readable = true
    · rw [if_pos hr, ih]
      simp [List.filter_cons, hr]
    · rw [if_neg hr, ih]
      simp [List.filter_cons, hr]

/-- C7: a per-file error makes `zip_folder` skip exactly that file and
continue; the operation always completes, and the archive holds every
readable file under its relative path, in walk order. -/
theorem c7_zip_best_effort (files : List SrcFile) :
    zip_folder files =
      (files.filter (fun f => f.readable)).map (fun f => (f.relpath, f.content)) ∧
    ∀ f ∈ files, f.readable = true → (f.relpath, f.content) ∈ zip_folder files := by
  have h1 : zip_folder files =
      (files.filter (fun f => f.readable)).map (fun f => (f.relpath, f.content)) := by
    have := zip_folder_go files []
    simpa [zip_folder] using this
  refine ⟨h1, ?_⟩
  intro f hf hr
  rw [h1]
  exact List.mem_map.mpr ⟨f, List.mem_filter.mpr ⟨hf, by simp [hr]⟩, rfl⟩

/-- C7 witness: with one readable and one locked file, the readable file
is archived. -/
theorem c7_zip_best_effort_witness :
    ("Bookmarks", "data") ∈
      zip_folder [⟨"Bookmarks", "data", true⟩, ⟨"Cookies", "locked", false⟩] :=
  (c7_zip_best_effort _).2 ⟨"Bookmarks", "data", true⟩ (by simp) rfl

/-! ## Registry patcher characterization -/

theorem register_spec (d p ic meta : JObj) (folder display : String)
    (hp : dget d "profile" = some (.jobj p))
    (hic : dget p "info_cache" = some (.jobj ic))
    (hmeta : (dget ic folder).getD (.jobj []) = .jobj meta) :
    update_local_state_register_profile (.jobj d) folder display =
      some (.jobj (dset d "profile" (.jobj (regNewProf p ic meta folder display)))) := by
  unfold update_local_state_register_profile
  simp only [jAsObj]
  rw [dsetdefault_of_present _ _ _ _ hp]
  simp only [jAsObj]
  rw [dsetdefault_of_present _ _ _ _ hic]
  simp only [jAsObj]
  rw [hmeta]
  simp only [jAsObj]
  rfl

theorem regNewMeta_name (meta : JObj) (display : String) :
    dget (regNewMeta meta display) "name" = some (.jstr display) := by
  unfold regNewMeta
  rw [dget_dsetdefault_ne _ _ _ _ (by decide)]
  rw [dget_dsetdefault_ne _ _ _ _ (by decide)]
  exact dget_dset_self _ _ _

theorem regNewMeta_gaia (meta : JObj) (display : String) :
    dget (regNewMeta meta display) "gaia_name" =
      some ((dget meta "gaia_name").getD (.jstr "")) := by
  unfold regNewMeta
  rw [dget_dsetdefault_ne _ _ _ _ (by decide)]
  rw [dget_dsetdefault_self]
  rw [dget_dset_ne _ _ _ _ (by decide)]

theorem regNewMeta_user (meta : JObj) (display : String) :
    dget (regNewMeta meta display) "user_name" =
      some ((dget meta "user_name").getD (.jstr "")) := by
  unfold regNewMeta
  rw [dget_dsetdefault_self]
  rw [dget_dsetdefault_ne _ _ _ _ (by decide)]
  rw [dget_dset_ne _ _ _ _ (by decide)]

theorem regNewMeta_other (meta : JObj) (display : String) (k : String)
    (h1 : k ≠ "name") (h2 : k ≠ "gaia_name") (h3 : k ≠ "user_name") :
    dget (regNewMeta meta display) k = dget meta k := by
  unfold regNewMeta
  rw [dget_dsetdefault_ne _ _ _ _ h3, dget_dsetdefault_ne _ _ _ _ h2,
    dget_dset_ne _ _ _ _ h1]

theorem regNewProf_info_cache (p ic meta : JObj) (folder display : String) :
    dget (regNewProf p ic meta folder display) "info_cache" =
      some (.jobj (dset ic folder (.jobj (regNewMeta meta display)))) := by
  unfold regNewProf
  rw [dget_dset_ne _ _ _ _ (by decide), dget_dset_ne _ _ _ _ (by decide), dget_dset_self]

theorem regNewProf_last_used (p ic meta : JObj) (folder display : String) :
    dget (regNewProf p ic meta folder display) "last_used" = some (.jstr folder) := by
  unfold regNewProf
  rw [dget_dset_ne _ _ _ _ (by decide), dget_dset_self]

theorem jGetList_dset_ne (p : JObj) (k : String) (v : JValue)
    (h : ("last_active_profiles" : String) ≠ k) : jGetList (dset p k v) = jGetList p := by
  unfold jGetList
  rw [dget_dset_ne _ _ _ _ h]

theorem regNewProf_last_active (p ic meta : JObj) (folder display : String) :
    dget (regNewProf p ic meta folder display) "last_active_profiles" =
      some (.jarr (.jstr folder :: (jGetList p).filter
        (fun x => match x with | .jstr s => decide (s ≠ folder) | _ => true))) := by
  unfold regNewProf
  rw [dget_dset_self]
  rw [jGetList_dset_ne _ _ _ (by decide), jGetList_dset_ne _ _ _ (by decide)]

theorem jGetList_regNewProf (p ic meta : JObj) (folder display : String) :
    jGetList (regNewProf p ic meta folder display) =
      .jstr folder :: (jGetList p).filter
        (fun x => match x with | .jstr s => decide (s ≠ folder) | _ => true) := by
  show (match dget (regNewProf p ic meta folder display) "last_active_profiles" with
    | some (.jarr xs) => xs
    | _ => []) = _
  rw [regNewProf_last_active]

/-- C2: after a successful registration the `info_cache` entry for the
folder carries the display name with pre-existing auxiliary identity
fields preserved (unset ones defaulted to empty strings) and all other
fields untouched, `last_used` is the folder, and the recency list is the
old list with the folder moved to the front and duplicates of it removed;
in particular registering A then B on a registry satisfying the no-dup
recency invariant yields a list beginning `[B, A, ...]` with no duplicates
and `last_used = B`. -/
theorem c2_register_profile :
    (∀ (d p ic meta : JObj) (folder display : String),
      dget d "profile" = some (.jobj p) →
      dget p "info_cache" = some (.jobj ic) →
      (dget ic folder).getD (.jobj []) = .jobj meta →
      ∃ d' p' ic' meta',
        update_local_state_register_profile (.jobj d) folder display = some (.jobj d') ∧
        dget d' "profile" = some (.jobj p') ∧
        dget p' "info_cache" = some (.jobj ic') ∧
        dget ic' folder = some (.jobj meta') ∧
        dget meta' "name" = some (.jstr display) ∧
        dget meta' "gaia_name" = some ((dget meta "gaia_name").getD (.jstr "")) ∧
        dget meta' "user_name" = some ((dget meta "user_name").getD (.jstr "")) ∧
        (∀ k, k ≠ "name" → k ≠ "gaia_name" → k ≠ "user_name" →
          dget meta' k = dget meta k) ∧
        dget p' "last_used" = some (.jstr folder) ∧
        dget p' "last_active_profiles" = some (.jarr (.jstr folder ::
          (jGetList p).filter
            (fun x => match x with | .jstr s => decide (s ≠ folder) | _ => true)))) ∧
    (∀ (d p ic metaA metaB : JObj) (A B dispA dispB : String) (out1 : JValue),
      dget d "profile" = some (.jobj p) →
      dget p "info_cache" = some (.jobj ic) →
      (dget ic A).getD (.jobj []) = .jobj metaA →
      (dget ic B).getD (.jobj []) = .jobj metaB →
      A ≠ B →
      (jGetList p).Nodup →
      update_local_state_register_profile (.jobj d) A dispA = some out1 →
      ∃ d2 p2,
        update_local_state_register_profile out1 B dispB = some (.jobj d2) ∧
        dget d2 "profile" = some (.jobj p2) ∧
        dget p2 "last_used" = some (.jstr B) ∧
        ∃ rest, dget p2 "last_active_profiles" =
            some (.jarr (.jstr B :: .jstr A :: rest)) ∧
          (JValue.jstr B :: .jstr A :: rest : List JValue).Nodup) := by
  constructor
  · intro d p ic meta folder display hp hic hmeta
    exact ⟨dset d "profile" (.jobj (regNewProf p ic meta folder display)),
      regNewProf p ic meta folder display,
      dset ic folder (.jobj (regNewMeta meta display)),
      regNewMeta meta display,
      register_spec d p ic meta folder display hp hic hmeta,
      dget_dset_self _ _ _,
      regNewProf_info_cache p ic meta folder display,
      dget_dset_self _ _ _,
      regNewMeta_name meta display,
      regNewMeta_gaia meta display,
      regNewMeta_user meta display,
      fun k h1 h2 h3 => regNewMeta_other meta display k h1 h2 h3,
      regNewProf_last_used p ic meta folder display,
      regNewProf_last_active p ic meta folder display⟩
  · intro d p ic metaA metaB A B dispA dispB out1 hp hic hmA hmB hAB hnd hreg1
    have hspec1 := register_spec d p ic metaA A dispA hp hic hmA
    rw [hreg1] at hspec1
    injection hspec1 with hout1
    subst hout1
    have h2 : dget (regNewProf p ic metaA A dispA) "info_cache" =
        some (.jobj (dset ic A (.jobj (regNewMeta metaA dispA)))) :=
      regNewProf_info_cache p ic metaA A dispA
    have h3 : (dget (dset ic A (.jobj (regNewMeta metaA dispA))) B).getD (.jobj []) =
        .jobj metaB := by
      rw [dget_dset_ne _ _ _ _ (Ne.symm hAB)]
      exact hmB
    have hspec2 := register_spec (dset d "profile" (.jobj (regNewProf p ic metaA A dispA)))
      (regNewProf p ic metaA A dispA) (dset ic A (.jobj (regNewMeta metaA dispA)))
      metaB B dispB (dget_dset_self _ _ _) h2 h3
    refine ⟨_, regNewProf (regNewProf p ic metaA A dispA)
      (dset ic A (.jobj (regNewMeta metaA dispA))) metaB B dispB,
      hspec2, dget_dset_self _ _ _,
      regNewProf_last_used _ _ _ _ _, ?_⟩
    refine ⟨(((jGetList p).filter
        (fun x => match x with | .jstr s => decide (s ≠ A) | _ => true)).filter
        (fun x => match x with | .jstr s => decide (s ≠ B) | _ => true)), ?_, ?_⟩
    · rw [regNewProf_last_active]
      rw [jGetList_regNewProf]
      rw [List.filter_cons]
      simp [hAB]
    · have hl1 : ((jGetList p).filter
          (fun x => match x with | .jstr s => decide (s ≠ A) | _ => true)).Nodup :=
        hnd.filter _
      have hrest := hl1.filter
        (fun x => match x with | .jstr s => decide (s ≠ B) | _ => true)
      have hAnot : (JValue.jstr A) ∉ (jGetList p).filter
          (fun x => match x with | .jstr s => decide (s ≠ A) | _ => true) := by
        intro hmem
        have hpr := (List.mem_filter.mp hmem).2
        simp at hpr
      have hAnotrest : (JValue.jstr A) ∉ (((jGetList p).filter
          (fun x => match x with | .jstr s => decide (s ≠ A) | _ => true)).filter
          (fun x => match x with | .jstr s => decide (s ≠ B) | _ => true)) :=
        fun hm => hAnot (List.mem_of_mem_filter hm)
      have hBnot : (JValue.jstr B) ∉ (((jGetList p).filter
          (fun x => match x with | .jstr s => decide (s ≠ A) | _ => true)).filter
          (fun x => match x with | .jstr s => decide (s ≠ B) | _ => true)) := by
        intro hmem
        have hpr := (List.mem_filter.mp hmem).2
        simp at hpr
      refine List.nodup_cons.mpr ⟨?_, List.nodup_cons.mpr ⟨hAnotrest, hrest⟩⟩
      intro hmem
      rcases List.mem_cons.mp hmem with heq | hmem2
      · injection heq with hBA
        exact hAB hBA.symm
      · exact hBnot hmem2

/-- C2 witness: registering `Profile 1` as `Work` on a registry whose
profile section holds an empty `info_cache`. -/
theorem c2_register_profile_witness :
    ∃ d' p' ic' meta',
      update_local_state_register_profile
          (.jobj [("profile", .jobj [("info_cache", .jobj [])])]) "Profile 1" "Work" =
        some (.jobj d') ∧
      dget d' "profile" = some (.jobj p') ∧
      dget p' "info_cache" = some (.jobj ic') ∧
      dget ic' "Profile 1" = some (.jobj meta') ∧
      dget meta' "name" = some (.jstr "Work") ∧
      dget meta' "gaia_name" = some ((dget ([] : JObj) "gaia_name").getD (.jstr "")) ∧
      dget meta' "user_name" = some ((dget ([] : JObj) "user_name").getD (.jstr "")) ∧
      (∀ k, k ≠ "name" → k ≠ "gaia_name" → k ≠ "user_name" →
        dget meta' k = dget ([] : JObj) k) ∧
      dget p' "last_used" = some (.jstr "Profile 1") ∧
      dget p' "last_active_profiles" = some (.jarr (.jstr "Profile 1" ::
        (jGetList [("info_cache", .jobj [])]).filter
          (fun x => match x with | .jstr s => decide (s ≠ "Profile 1") | _ => true))) :=
  c2_register_profile.1 [("profile", .jobj [("info_cache", .jobj [])])]
    [("info_cache", .jobj [])] [] [] "Profile 1" "Work" rfl rfl rfl

/-! ## C6: idempotence of registration -/

theorem register_spec_general (d p ic meta : JObj) (folder display : String)
    (hp : (dsetdefault d "profile" (.jobj [])).1 = .jobj p)
    (hic : (dsetdefault p "info_cache" (.jobj [])).1 = .jobj ic)
    (hmeta : (dget ic folder).getD (.jobj []) = .jobj meta) :
    update_local_state_register_profile (.jobj d) folder display =
      some (.jobj (dset (dsetdefault d "profile" (.jobj [])).2 "profile"
        (.jobj (regNewProf (dsetdefault p "info_cache" (.jobj [])).2 ic meta
          folder display)))) := by
  unfold update_local_state_register_profile
  simp only [jAsObj]
  rw [hp]
  simp only [jAsObj]
  rw [hic]
  simp only [jAsObj]
  rw [hmeta]
  simp only [jAsObj]
  rfl

theorem dset_dset_self {α : Type} (d : List (String × α)) (k : String) (v w : α) :
    dset (dset d k v) k w = dset d k w := by
  induction d with
  | nil => simp [dset]
  | cons e t ih =>
    obtain ⟨k1, v1⟩ := e
    by_cases h1 : k1 = k
    · simp [dset, h1]
    · simp [dset, h1, ih]

theorem dsetdefault_snd_of_present {α : Type} (d : List (String × α)) (k : String)
    (v w : α) (h : dget d k = some w) : (dsetdefault d k v).2 = d := by
  rw [dsetdefault_of_present _ _ _ _ h]

theorem filter_idem {α : Type} (q : α → Bool) (l : List α) :
    (l.filter q).filter q = l.filter q := by
  induction l with
  | nil => rfl
  | cons a t ih =>
    by_cases hq : q a = true
    · simp [List.filter_cons, hq, ih]
    · simp [List.filter_cons, hq, ih]

theorem regNewMeta_idem (meta : JObj) (display : String) :
    regNewMeta (regNewMeta meta display) display = regNewMeta meta display := by
  have hname := regNewMeta_name meta display
  have hgaia := regNewMeta_gaia meta display
  have huser := regNewMeta_user meta display
  show (dsetdefault ((dsetdefault (dset (regNewMeta meta display) "name" (.jstr display))
    "gaia_name" (.jstr "")).2) "user_name" (.jstr "")).2 = regNewMeta meta display
  rw [dset_of_dget_eq _ _ _ hname]
  rw [dsetdefault_snd_of_present _ _ _ _ hgaia]
  rw [dsetdefault_snd_of_present _ _ _ _ huser]

theorem regNewProf_idem (p1 ic meta : JObj) (folder display : String) :
    regNewProf (regNewProf p1 ic meta folder display)
        (dset ic folder (.jobj (regNewMeta meta display))) (regNewMeta meta display)
        folder display =
      regNewProf p1 ic meta folder display := by
  set P1 := regNewProf p1 ic meta folder display with hP1
  set M1 := regNewMeta meta display with hM1
  set IC1 := dset ic folder (.jobj M1) with hIC1
  show dset
      (dset (dset P1 "info_cache" (.jobj (dset IC1 folder (.jobj (regNewMeta M1 display)))))
        "last_used" (.jstr folder))
      "last_active_profiles"
      (.jarr (.jstr folder ::
        (jGetList (dset (dset P1 "info_cache"
            (.jobj (dset IC1 folder (.jobj (regNewMeta M1 display)))))
          "last_used" (.jstr folder))).filter
          (fun x => match x with | .jstr s => decide (s ≠ folder) | _ => true))) = P1
  have hmm : regNewMeta M1 display = M1 := by
    rw [hM1]
    exact regNewMeta_idem meta display
  rw [hmm]
  have hICidem : dset IC1 folder (.jobj M1) = IC1 := by
    rw [hIC1]
    exact dset_dset_self ic folder _ _
  rw [hICidem]
  have hic_p : dset P1 "info_cache" (.jobj IC1) = P1 := by
    apply dset_of_dget_eq
    rw [hP1, hIC1, hM1]
    exact regNewProf_info_cache p1 ic meta folder display
  rw [hic_p]
  have hlu : dset P1 "last_used" (.jstr folder) = P1 := by
    apply dset_of_dget_eq
    rw [hP1]
    exact regNewProf_last_used p1 ic meta folder display
  rw [hlu]
  have hgl : jGetList P1 = .jstr folder :: (jGetList p1).filter
      (fun x => match x with | .jstr s => decide (s ≠ folder) | _ => true) := by
    rw [hP1]
    exact jGetList_regNewProf p1 ic meta folder display
  rw [hgl]
  rw [List.filter_cons]
  rw [if_neg (by simp)]
  rw [filter_idem]
  apply dset_of_dget_eq
  rw [hP1]
  exact regNewProf_last_active p1 ic meta folder display

/-- C6: registering the same (folder, display name) twice yields a registry
equal to registering it once — the second call finds the folder already at
the front of the recency list, every field already carrying its target
value, and rewrites the document to itself. -/
theorem c6_register_idempotent (d p ic meta : JObj) (folder display : String)
    (hp : (dsetdefault d "profile" (.jobj [])).1 = .jobj p)
    (hic : (dsetdefault p "info_cache" (.jobj [])).1 = .jobj ic)
    (hmeta : (dget ic folder).getD (.jobj []) = .jobj meta) :
    ∃ out : JValue,
      update_local_state_register_profile (.jobj d) folder display = some out ∧
      update_local_state_register_profile out folder display = some out := by
  have h1 := register_spec_general d p ic meta folder display hp hic hmeta
  refine ⟨_, h1, ?_⟩
  have h2 := register_spec
    (dset (dsetdefault d "profile" (.jobj [])).2 "profile"
      (.jobj (regNewProf (dsetdefault p "info_cache" (.jobj [])).2 ic meta folder display)))
    (regNewProf (dsetdefault p "info_cache" (.jobj [])).2 ic meta folder display)
    (dset ic folder (.jobj (regNewMeta meta display)))
    (regNewMeta meta display) folder display
    (dget_dset_self _ _ _)
    (regNewProf_info_cache _ _ _ _ _)
    (by rw [dget_dset_self]; rfl)
  rw [h2]
  congr 2
  rw [regNewProf_idem]
  exact dset_dset_self _ _ _ _

/-- C6 witness: registering twice on an initially empty registry document. -/
theorem c6_register_idempotent_witness :
    ∃ out : JValue,
      update_local_state_register_profile (.jobj []) "Profile 1" "Work" = some out ∧
      update_local_state_register_profile out "Profile 1" "Work" = some out :=
  c6_register_idempotent [] [] [] [] "Profile 1" "Work" rfl rfl rfl

/-! ## C5: corrupt registry file -/

theorem bakPath_ne (ts : String) : LOCAL_STATE_PATH ≠ bakPath ts := by
  intro he
  have hlen : LOCAL_STATE_PATH.length = (bakPath ts).length := by rw [he]
  rw [bakPath, String.length_append, String.length_append] at hlen
  have h2 : ".bak_".length = 5 := by decide
  omega

/-- C5: on a registry file whose contents fail to parse as JSON,
registration still succeeds: the corrupt file is first copied to the
timestamped backup path, the load falls back to the empty document, and
the rewritten registry holds exactly the newly registered profile, with
the backup still on disk afterwards. -/
theorem c5_corrupt_registry (fs : Fs) (raw ts folder display : String)
    (h : fs LOCAL_STATE_PATH = some (.corrupt raw)) :
    ∃ fs' : Fs,
      update_local_state_register_profile_fs fs ts folder display = some fs' ∧
      fs' (bakPath ts) = some (.corrupt raw) ∧
      fs' LOCAL_STATE_PATH = some (.json (.jobj [("profile", .jobj
        [("info_cache", .jobj [(folder, .jobj
            [("name", .jstr display), ("gaia_name", .jstr ""), ("user_name", .jstr "")])]),
          ("last_used", .jstr folder),
          ("last_active_profiles", .jarr [.jstr folder])])])) := by
  have hread : read_json (fsWrite fs (bakPath ts) (.corrupt raw)) LOCAL_STATE_PATH =
      .jobj [] := by
    unfold read_json fsWrite
    rw [if_neg (bakPath_ne ts)]
    rw [h]
  have hstep : update_local_state_register_profile_fs fs ts folder display =
      some (fsWrite (fsWrite fs (bakPath ts) (.corrupt raw)) LOCAL_STATE_PATH
        (.json (.jobj [("profile", .jobj
          [("info_cache", .jobj [(folder, .jobj
              [("name", .jstr display), ("gaia_name", .jstr ""), ("user_name", .jstr "")])]),
            ("last_used", .jstr folder),
            ("last_active_profiles", .jarr [.jstr folder])])]))) := by
    unfold update_local_state_register_profile_fs
    rw [h]
    show (match update_local_state_register_profile
        (read_json (fsWrite fs (bakPath ts) (.corrupt raw)) LOCAL_STATE_PATH)
        folder display with
      | none => none
      | some out => some (fsWrite (fsWrite fs (bakPath ts) (.corrupt raw))
          LOCAL_STATE_PATH (.json out))) = _
    rw [hread]
    rw [register_spec_general [] [] [] [] folder display rfl rfl rfl]
    rfl
  refine ⟨_, hstep, ?_, ?_⟩
  · have hne : bakPath ts ≠ LOCAL_STATE_PATH := fun hh => bakPath_ne ts hh.symm
    simp [fsWrite, hne]
  · simp [fsWrite]

/-- C5 witness: a concrete file system whose registry file holds
unparsable bytes. -/
theorem c5_corrupt_registry_witness :
    ∃ fs' : Fs,
      update_local_state_register_profile_fs
          (fun p => if p = LOCAL_STATE_PATH then some (.corrupt "garbage") else none)
          "20240101_000000" "Profile 1" "Work" = some fs' ∧
      fs' (bakPath "20240101_000000") = some (.corrupt "garbage") ∧
      fs' LOCAL_STATE_PATH = some (.json (.jobj [("profile", .jobj
        [("info_cache", .jobj [("Profile 1", .jobj
            [("name", .jstr "Work"), ("gaia_name", .jstr ""), ("user_name", .jstr "")])]),
          ("last_used", .jstr "Profile 1"),
          ("last_active_profiles", .jarr [.jstr "Profile 1"])])])) :=
  c5_corrupt_registry _ "garbage" "20240101_000000" "Profile 1" "Work" rfl

/-! ## C10: preference stamping performs no write when the name matches -/

/-- C10: when the Preference Document already stores the requested display
name, `ensure_preferences_display_name` returns without writing: the file
system is unchanged at every path, and in particular a missing
`avatar_index` is not filled in. -/
theorem c10_prefs_no_write (fs : Fs) (profileDir display : String) (d prof : JObj)
    (hfile : fs (profileDir ++ "/Preferences") = some (.json (.jobj d)))
    (hprof : (dsetdefault d "profile" (.jobj [])).1 = .jobj prof)
    (hname : dget prof "name" = some (.jstr display)) :
    ensure_preferences_display_name fs profileDir display = fs := by
  have hread : read_json fs (profileDir ++ "/Preferences") = .jobj d := by
    unfold read_json
    rw [hfile]
  unfold ensure_preferences_display_name
  simp only [hread]
  simp only [hprof, jAsObj]
  rw [if_pos (by rw [hname]; simp [jIsStr])]

/-- C10 witness: a Preference Document already naming the profile `Work`
and carrying no avatar field is left untouched. -/
theorem c10_prefs_no_write_witness :
    ensure_preferences_display_name
        (fun p => if p = "Profile 1/Preferences"
          then some (.json (.jobj [("profile", .jobj [("name", .jstr "Work")])])) else none)
        "Profile 1" "Work" =
      (fun p => if p = "Profile 1/Preferences"
        then some (.json (.jobj [("profile", .jobj [("name", .jstr "Work")])])) else none) :=
  c10_prefs_no_write _ "Profile 1" "Work"
    [("profile", .jobj [("name", .jstr "Work")])] [("name", .jstr "Work")] rfl rfl rfl

/-! ## C9: display-name fallback -/

theorem collectNames_not_mem (entries : List (String × JValue)) :
    ∀ (acc : JObj) (folder : String), dget entries folder = none →
      dget (collectNames entries acc) folder = dget acc folder := by
  induction entries with
  | nil => intro acc folder _; rfl
  | cons e rest ih =>
    intro acc folder h
    obtain ⟨k, meta⟩ := e
    have hk : ¬ k = folder := by
      intro hkf
      simp [dget, hkf] at h
    have hrest : dget rest folder = none := by
      simpa [dget, hk] using h
    cases meta with
    | jobj m =>
      show dget (collectNames rest (dset acc k (dispOf m k))) folder = dget acc folder
      rw [ih _ folder hrest]
      exact dget_dset_ne _ _ _ _ (fun hh => hk hh.symm)
    | null => rfl
    | jbool b => rfl
    | jnum n => rfl
    | jstr s => rfl
    | jarr xs => rfl

theorem read_names_lookup_none (fs : Fs) (folder : String)
    (h : ∀ v, fs LOCAL_STATE_PATH = some (.json v) → dget (regInfoCache v) folder = none) :
    dget (read_profile_display_names fs) folder = none := by
  unfold read_profile_display_names
  cases hfs : fs LOCAL_STATE_PATH with
  | none => rfl
  | some c =>
    cases c with
    | corrupt raw => rfl
    | json v =>
      have hic := h v hfs
      unfold regInfoCache at hic
      cases v with
      | null => rfl
      | jbool b => rfl
      | jnum n => rfl
      | jstr s => rfl
      | jarr xs => rfl
      | jobj d =>
        replace hic : dget (match (dget d "profile").getD (.jobj []) with
          | JValue.jobj p =>
            match (dget p "info_cache").getD (.jobj []) with
            | JValue.jobj ic => ic
            | _ => []
          | _ => []) folder = none := hic
        show dget (match (dget d "profile").getD (.jobj []) with
          | JValue.jobj p =>
            match (dget p "info_cache").getD (.jobj []) with
            | JValue.jobj ic => collectNames ic []
            | _ => []
          | _ => []) folder = none
        cases hp : (dget d "profile").getD (.jobj []) with
        | null => rfl
        | jbool b => rfl
        | jnum n => rfl
        | jstr s => rfl
        | jarr xs => rfl
        | jobj p =>
          rw [hp] at hic
          replace hic : dget (match (dget p "info_cache").getD (.jobj []) with
            | JValue.jobj ic => ic
            | _ => []) folder = none := hic
          show dget (match (dget p "info_cache").getD (.jobj []) with
            | JValue.jobj ic => collectNames ic []
            | _ => []) folder = none
          cases hq : (dget p "info_cache").getD (.jobj []) with
          | null => rfl
          | jbool b => rfl
          | jnum n => rfl
          | jstr s => rfl
          | jarr xs => rfl
          | jobj ic =>
            rw [hq] at hic
            replace hic : dget ic folder = none := hic
            rw [collectNames_not_mem ic [] folder hic]
            rfl

theorem sIns_perm (x : String × JValue) (l : List (String × JValue)) :
    (sIns x l).Perm (x :: l) := by
  induction l with
  | nil => exact List.Perm.refl _
  | cons y t ih =>
    unfold sIns
    split
    · exact (List.Perm.cons y ih).trans (List.Perm.swap x y t)
    · exact List.Perm.refl _

theorem pySortedByKey_perm (l : List (String × JValue)) : (pySortedByKey l).Perm l := by
  induction l with
  | nil => exact List.Perm.refl _
  | cons a t ih =>
    exact (sIns_perm a (pySortedByKey t)).trans (List.Perm.cons a ih)

/-- C9: a profile folder is reported under its own name whenever the
registry file is missing, fails to parse, or lacks an `info_cache` entry
for it (all three captured by: every parsed registry document lacks the
entry); and a registry parse error is swallowed — the display-name map is
simply empty, never an exception. -/
theorem c9_display_fallback (fs : Fs) :
    (∀ raw, fs LOCAL_STATE_PATH = some (.corrupt raw) →
      read_profile_display_names fs = []) ∧
    (∀ (base : List (String × Tree)) (pr : String × JValue),
      pr ∈ list_profiles_with_names fs base →
      (∀ v, fs LOCAL_STATE_PATH = some (.json v) → dget (regInfoCache v) pr.1 = none) →
      pr.2 = .jstr pr.1) := by
  constructor
  · intro raw h
    unfold read_profile_display_names
    rw [h]
  · intro base pr hmem hnoentry
    have hmem2 : pr ∈ profileEntries fs base :=
      (pySortedByKey_perm (profileEntries fs base)).mem_iff.mp hmem
    unfold profileEntries at hmem2
    obtain ⟨e, he, hf⟩ := List.mem_filterMap.mp hmem2
    by_cases hc : (e.2.isDir && (e.1 = "Default" || profileMarker.isPrefixOf e.1.data)) = true
    · rw [if_pos hc] at hf
      injection hf with hf2
      subst hf2
      show (dget (read_profile_display_names fs) e.1).getD (.jstr e.1) = .jstr e.1
      rw [read_names_lookup_none fs e.1 hnoentry]
      rfl
    · rw [if_neg hc] at hf
      exact absurd hf (by simp)

/-- C9 witness: with no registry file at all, the `Default` folder is
listed under its own name. -/
theorem c9_display_fallback_witness :
    (("Default", JValue.jstr "Default") : String × JValue).2 =
      .jstr (("Default", JValue.jstr "Default") : String × JValue).1 :=
  (c9_display_fallback (fun _ => none)).2 [("Default", Tree.dir [])]
    ("Default", .jstr "Default") (List.mem_cons_self _ _)
    (fun _ hv => Option.noConfusion hv)

/-! ## C8: profile ordering -/

theorem keyLE_of_keyLT (a b : Nat × Int) (h : keyLT a b = true) : keyLE a b = true := by
  unfold keyLT at h
  unfold keyLE
  simp only [Bool.or_eq_true, Bool.and_eq_true, decide_eq_true_eq] at h ⊢
  omega

theorem keyLE_of_not_keyLT (a b : Nat × Int) (h : ¬ keyLT b a = true) : keyLE a b = true := by
  unfold keyLT at h
  unfold keyLE
  simp only [Bool.or_eq_true, Bool.and_eq_true, decide_eq_true_eq] at h ⊢
  omega

theorem keyLE_trans (a b c : Nat × Int) (h1 : keyLE a b = true) (h2 : keyLE b c = true) :
    keyLE a c = true := by
  unfold keyLE at h1 h2 ⊢
  simp only [Bool.or_eq_true, Bool.and_eq_true, decide_eq_true_eq] at h1 h2 ⊢
  omega

theorem sIns_pairwise (x : String × JValue) (l : List (String × JValue))
    (hl : l.Pairwise (fun a b => keyLE (sort_key a.1) (sort_key b.1) = true)) :
    (sIns x l).Pairwise (fun a b => keyLE (sort_key a.1) (sort_key b.1) = true) := by
  induction l with
  | nil => simp [sIns]
  | cons y t ih =>
    rw [List.pairwise_cons] at hl
    obtain ⟨hy, ht⟩ := hl
    unfold sIns
    split
    · next hlt =>
      rw [List.pairwise_cons]
      refine ⟨?_, ih ht⟩
      intro z hz
      rcases List.mem_cons.mp ((sIns_perm x t).mem_iff.mp hz) with hzx | hzt
      · subst hzx
        exact keyLE_of_keyLT _ _ hlt
      · exact hy z hzt
    · next hnlt =>
      rw [List.pairwise_cons]
      refine ⟨?_, List.pairwise_cons.mpr ⟨hy, ht⟩⟩
      intro z hz
      rcases List.mem_cons.mp hz with hzy | hzt
      · subst hzy
        exact keyLE_of_not_keyLT _ _ hnlt
      · exact keyLE_trans _ _ _ (keyLE_of_not_keyLT _ _ hnlt) (hy z hzt)

theorem pySortedByKey_pairwise (l : List (String × JValue)) :
    (pySortedByKey l).Pairwise (fun a b => keyLE (sort_key a.1) (sort_key b.1) = true) := by
  induction l with
  | nil => exact List.Pairwise.nil
  | cons a t ih => exact sIns_pairwise a _ ih

/-- C8 counterexample: with sibling slots `Profile X` (unparsable number)
and `Profile 100000`, `list_profiles_with_names` puts the unparsable slot
FIRST — its sentinel key 99999 sorts below 100000 — contradicting "every
slot whose number is unparsable sorts after every slot with a parsable
number". -/
theorem c8_sort_counterexample :
    list_profiles_with_names (fun _ => none)
        [("Profile X", Tree.dir []), ("Profile 100000", Tree.dir [])] =
      [("Profile X", .jstr "Profile X"), ("Profile 100000", .jstr "Profile 100000")] := by
  rfl

/-- C8 amended: the output is a permutation of the located profile entries,
sorted (stably) by the key assigning `(0, 0)` to the sentinel `Default`
and `(1, n)` to any other folder — `n` its parsed numeric token, or the
sentinel value 99999 when parsing fails.  So the sentinel comes first and
numbered slots ascend, but an unparsable slot sorts after a parsable one
only when the parsed number is below 99999. -/
theorem c8_sort_amended (fs : Fs) (base : List (String × Tree)) :
    (list_profiles_with_names fs base).Perm (profileEntries fs base) ∧
    (list_profiles_with_names fs base).Pairwise
      (fun a b => keyLE (sort_key a.1) (sort_key b.1) = true) ∧
    sort_key "Default" = (0, 0) ∧
    (∀ folder : String, folder ≠ "Default" → ∀ n : Int, profileNumTok folder = some n →
      sort_key folder = (1, n)) ∧
    (∀ folder : String, folder ≠ "Default" → profileNumTok folder = none →
      sort_key folder = (1, 99999)) := by
  refine ⟨pySortedByKey_perm _, pySortedByKey_pairwise _, rfl, ?_, ?_⟩
  · intro folder hdef n htok
    unfold sort_key
    rw [if_neg hdef, htok]
  · intro folder hdef htok
    unfold sort_key
    rw [if_neg hdef, htok]

/-- C8 amended witness: the unparsable slot `Profile X` receives the
sentinel key. -/
theorem c8_sort_amended_witness : sort_key "Profile X" = (1, 99999) :=
  (c8_sort_amended (fun _ => none) []).2.2.2.2 "Profile X" (by decide) rfl

/-! ## C3: import placement through a fresh temporary directory -/

theorem tmp_name_ne (folder ts : String) : folder ≠ folder ++ "_tmp_" ++ ts := by
  intro he
  have hlen : folder.length = (folder ++ "_tmp_" ++ ts).length := by rw [← he]
  rw [String.length_append, String.length_append] at hlen
  have h5 : ("_tmp_").length = 5 := by decide
  omega

theorem moveEntry_spec (b : List (String × Tree)) (src dst : String) (t : Tree)
    (hsrc : dget b src = some t) (hdst : dget b dst = none) :
    moveEntry b src dst = dset (dremove b src) dst t := by
  unfold moveEntry
  rw [hsrc]
  show (match dget b dst with
    | none => dset (dremove b src) dst t
    | some (.dir d) =>
      match dget d src with
      | some _ => b
      | none => dset (dremove b src) dst (.dir (d ++ [(src, t)]))
    | some (.file _) => b) = _
  rw [hdst]

/-- C3: extraction and unwrap happen entirely inside the fresh temporary
directory `<folder>_tmp_<ts>`, which is renamed to the final slot name
only after both finish.  If extraction fails (raises), the partial output
stays in the temporary directory, the rename never runs, and no directory
exists under the final profile folder name; on success the final name
holds exactly the flattened extracted tree and the temporary name is
gone. -/
theorem c3_import_placement (base : List (String × Tree)) (ts : String)
    (unzip : Tree → Except Tree Tree)
    (hfresh : dget base (next_profile_folder_name base ++ "_tmp_" ++ ts) = none) :
    (∀ part : Tree, unzip (.dir []) = .error part →
      ∀ t : Tree,
        dget (import_restore base ts unzip) (next_profile_folder_name base) = some t →
        t.isDir = false) ∧
    (∀ t1 : Tree, unzip (.dir []) = .ok t1 →
      dget base (next_profile_folder_name base) = none →
      dget (import_restore base ts unzip) (next_profile_folder_name base) =
          some (flatten_if_wrapped t1) ∧
        dget (import_restore base ts unzip)
          (next_profile_folder_name base ++ "_tmp_" ++ ts) = none) := by
  have hne : next_profile_folder_name base ≠
      next_profile_folder_name base ++ "_tmp_" ++ ts :=
    tmp_name_ne (next_profile_folder_name base) ts
  have himp : import_restore base ts unzip =
      import_place (dset base (next_profile_folder_name base ++ "_tmp_" ++ ts) (.dir []))
        (next_profile_folder_name base)
        (next_profile_folder_name base ++ "_tmp_" ++ ts) (.dir []) unzip := by
    unfold import_restore
    show (match dget base (next_profile_folder_name base ++ "_tmp_" ++ ts) with
      | some (.file _) => base
      | some (.dir t0) => import_place base (next_profile_folder_name base)
          (next_profile_folder_name base ++ "_tmp_" ++ ts) (.dir t0) unzip
      | none => import_place
          (dset base (next_profile_folder_name base ++ "_tmp_" ++ ts) (.dir []))
          (next_profile_folder_name base)
          (next_profile_folder_name base ++ "_tmp_" ++ ts) (.dir []) unzip) = _
    rw [hfresh]
  constructor
  · intro part herr t hget
    rw [himp] at hget
    unfold import_place at hget
    rw [herr] at hget
    replace hget : dget (dset (dset base (next_profile_folder_name base ++ "_tmp_" ++ ts)
        (.dir [])) (next_profile_folder_name base ++ "_tmp_" ++ ts) part)
        (next_profile_folder_name base) = some t := hget
    rw [dget_dset_ne _ _ _ _ hne, dget_dset_ne _ _ _ _ hne] at hget
    cases hd : t.isDir with
    | false => rfl
    | true =>
      exact absurd rfl
        (next_profile_fresh base (next_profile_folder_name base, t)
          (dget_mem _ _ _ hget) hd)
  · intro t1 hok hdest
    have hget2 : dget (dset (dset base (next_profile_folder_name base ++ "_tmp_" ++ ts)
        (.dir [])) (next_profile_folder_name base ++ "_tmp_" ++ ts)
        (flatten_if_wrapped t1)) (next_profile_folder_name base ++ "_tmp_" ++ ts) =
        some (flatten_if_wrapped t1) := dget_dset_self _ _ _
    have hdst2 : dget (dset (dset base (next_profile_folder_name base ++ "_tmp_" ++ ts)
        (.dir [])) (next_profile_folder_name base ++ "_tmp_" ++ ts)
        (flatten_if_wrapped t1)) (next_profile_folder_name base) = none := by
      rw [dget_dset_ne _ _ _ _ hne, dget_dset_ne _ _ _ _ hne]
      exact hdest
    have hres : import_restore base ts unzip =
        dset (dremove (dset (dset base (next_profile_folder_name base ++ "_tmp_" ++ ts)
            (.dir [])) (next_profile_folder_name base ++ "_tmp_" ++ ts)
            (flatten_if_wrapped t1)) (next_profile_folder_name base ++ "_tmp_" ++ ts))
          (next_profile_folder_name base) (flatten_if_wrapped t1) := by
      rw [himp]
      unfold import_place
      rw [hok]
      show moveEntry (dset (dset base (next_profile_folder_name base ++ "_tmp_" ++ ts)
          (.dir [])) (next_profile_folder_name base ++ "_tmp_" ++ ts)
          (flatten_if_wrapped t1)) (next_profile_folder_name base ++ "_tmp_" ++ ts)
          (next_profile_folder_name base) = _
      exact moveEntry_spec _ _ _ _ hget2 hdst2
    constructor
    · rw [hres]
      exact dget_dset_self _ _ _
    · rw [hres]
      rw [dget_dset_ne _ _ _ _ (Ne.symm hne)]
      exact dget_dremove_self _ _

/-- C3 witness: importing into an empty profile root with a successful
extraction places the flattened tree under the allocated slot name. -/
theorem c3_import_placement_witness :
    dget (import_restore [] "T" (fun _ => .ok (.dir [("Bookmarks", .file "b")])))
        (next_profile_folder_name []) =
      some (flatten_if_wrapped (.dir [("Bookmarks", .file "b")])) :=
  ((c3_import_placement [] "T" (fun _ => .ok (.dir [("Bookmarks", .file "b")])) rfl).2
    (.dir [("Bookmarks", .file "b")]) rfl rfl).1

end BackupChrome
